import Mathlib

/-!
Verification of the writer side of the shared-memory byte stream
(src/lib/utils/writer.js, the module using PREFIX_SIZE/POSTFIX_SIZE).

Shallow embedding conventions:
* Payloads and the shared byte region `B` are `List Nat` of byte values.
  The source writes JS strings with `Buffer.write` and slices them with
  `String.prototype.slice`; for the byte sequences considered here the
  units of `Buffer.byteLength` and of `slice` coincide, so a byte list is
  the faithful model.
* The shared state words (`READ_INDEX`, `READ_CYCLE`, `READ_PROCESS`) are
  owned by the reader process; each atomic load the writer performs is
  answered by an oracle indexed by a load counter that the model threads
  through every operation.  The writer-owned words (`WRITE_INDEX`,
  `WRITE_CYCLE`, `WRITE_PROCESS`) are kept inside the writer state.
* A JS `throw` is modelled as `Except.error (e, s)` carrying the writer
  state as it is at the moment of the throw (the JS object survives the
  exception unchanged; nothing in the module catches it).
* Recursive functions that in JS recurse on external progress
  (`Write`, `_drain`) take a fuel argument; exhaustion yields the
  distinguished error `WErr.fuelOut`, never used by any claim.
-/

namespace SharedStream

/-- PREFIX_SIZE: the 4-byte little-endian length that starts every frame
(`writeInt32LE` in `_store`). -/
def PREFIX_SIZE : Nat := 4

/-- FINISH_SPINS constant of writer.js. -/
def FINISH_SPINS : Nat := 10

/-- Configuration: POSTFIX_SIZE is the configured constant; EXTRA_SPACE is
derived as in the source (`PREFIX_SIZE + POSTFIX_SIZE`). -/
structure Cfg where
  post : Nat
deriving Repr, DecidableEq

/-- EXTRA_SPACE = PREFIX_SIZE + POSTFIX_SIZE. -/
def Cfg.extraSpace (c : Cfg) : Nat := PREFIX_SIZE + c.post

/-- Lifecycle signs stored in the `*_PROCESS` state words. -/
inductive Sign
  | empty
  | ready
  | finishing
  | finished
  | failed
deriving Repr, DecidableEq

/-- Whether `this.write` is currently bound to the normal engine
(`Write.bind(this, false)`) or to the buffering stub `FakeWrite`. -/
inductive Mode
  | normal
  | buffering
deriving Repr, DecidableEq

/-- The `Error` values the lifecycle controller passes to `destroy`. -/
inductive Err
  | finishTimeout
  | finishReaderFailed
  | readerExitBeforeSync
  | readerStartTimeout
  | readerExitAtSync
  | readerExitWhileWatch
deriving Repr, DecidableEq

/-- Events emitted through the `EventEmitter` base class. -/
inductive Ev
  | readyEv
  | drainEv
  | finishEv
  | errorEv (e : Err)
  | closeEv
deriving Repr, DecidableEq

/-- Exceptions thrown synchronously by the write engine
(`overwritten`, `Read further than expected`, the sync spin exhaustion),
plus the model-only fuel and undefined-shift markers. -/
inductive WErr
  | overwritten
  | readAhead
  | tooLong
  | fuelOut
  | undef
deriving Repr, DecidableEq

/-- The writer's instance state: the shared byte region `buf` (`B`), the
local cursor and cycle, the writer-owned shared words, the `this.write`
binding, the overflow queue `_extraBuffer`, the boolean flags of the
class, and the list of emitted events.  `watchStarted` instruments
whether `this._watch()` has been invoked; `crashed` marks the
`this._synchronize()` call on a method that does not exist. -/
structure WS where
  buf : List Nat
  wcur : Nat
  cyc : Nat
  wIdx : Nat
  wCyc : Nat
  wProc : Sign
  procLocal : Sign
  mode : Mode
  extra : List (List Nat)
  ready : Bool
  ended : Bool
  closed : Bool
  ending : Bool
  destroyed : Bool
  finished : Bool
  needDrain : Bool
  watching : Bool
  watchStarted : Bool
  crashed : Bool
  errored : Option Err
  events : List Ev
deriving Repr, DecidableEq

/-- Result of an `Atomics.waitAsync` that settled synchronously, or of a
blocking `Atomics.wait`. -/
inductive WaitRes
  | okRes
  | timedOut
  | notEqual
deriving Repr, DecidableEq

/-- The reader-side oracle: each kind of observation the writer makes of
reader-owned shared state is answered from a stream indexed by the load
counter `t`.
* `rd t`: the `t`-th paired load of (`READ_INDEX`, `READ_CYCLE`).
* `wa t`: whether the `t`-th `Atomics.waitAsync(READ_INDEX, …)` stays
  pending (`async = true`) or settles `not-equal` immediately.
* `spinOk t`: whether the `t`-th synchronous spin loop on `READ_INDEX`
  observes a change within `READ_SPINS` waits (otherwise the loop throws).
* `rp t`: the `t`-th load of `READ_PROCESS`.
* `syncWa t`: settlement of the `waitAsync(READ_PROCESS, EMPTY, …)` in
  `synchronize` (`none` = pending). -/
structure Oracle where
  rd : Nat → Nat × Nat
  wa : Nat → Bool
  spinOk : Nat → Bool
  rp : Nat → Sign
  syncWa : Nat → Option WaitRes

/-- Overwrite `data` into `buf` starting at `off`, clamped to the buffer
length exactly as `Buffer.write` clamps. -/
def writeBytesAt (buf : List Nat) (off : Nat) (data : List Nat) : List Nat :=
  buf.take off ++ data.take (buf.length - off) ++ buf.drop (off + data.length)

/-- The four little-endian bytes `writeInt32LE` stores (values here are
small nonnegative lengths). -/
def int32LE (n : Nat) : List Nat :=
  [n % 256, n / 256 % 256, n / 65536 % 256, n / 16777216 % 256]

/-- `_store(data, isNotFin = 0)`:
```
const written = this._sharedBuffer.write(data, this._write + PREFIX_SIZE);
this._sharedBuffer.writeInt32LE(written, this._write);
this._sharedBuffer.writeUInt8(isNotFin, this._write + written + EXTRA_SPACE);
this._write += PREFIX_SIZE + written + POSTFIX_SIZE + 1;
Atomics.store(this._sharedState, WRITE_INDEX, this._write);
Atomics.notify(this._sharedState, WRITE_INDEX);
```
`Buffer.write` copies at most `buf.length - offset` bytes and returns the
count actually copied.  The returned frame records the bytes that landed
in `B` plus the NOT_FINAL flag, for instrumentation. -/
def storeFrame (c : Cfg) (s : WS) (data : List Nat) (isNotFin : Nat) :
    WS × (List Nat × Nat) :=
  let written := min data.length (s.buf.length - (s.wcur + PREFIX_SIZE))
  let buf1 := writeBytesAt s.buf (s.wcur + PREFIX_SIZE) (data.take written)
  let buf2 := writeBytesAt buf1 s.wcur (int32LE written)
  let buf3 := buf2.set (s.wcur + written + c.extraSpace) isNotFin
  let w2 := s.wcur + PREFIX_SIZE + written + c.post + 1
  ({ s with buf := buf3, wcur := w2, wIdx := w2 }, (data.take written, isNotFin))

/-- The state mutation of the wrap branch of `Write`:
```
this._write = 0;
Atomics.store(this._sharedState, WRITE_INDEX, this._write);
Atomics.store(this._sharedState, WRITE_CYCLE, this._cycle++);
Atomics.notify(this._sharedState, WRITE_INDEX);
```
Note the post-increment: the value stored into `WRITE_CYCLE` is the cycle
before the increment. -/
def wrapState (s : WS) : WS :=
  { s with wcur := 0, wIdx := 0, wCyc := s.cyc, cyc := s.cyc + 1 }

/-- `READ_INDEX` answered by the oracle at load `t`. -/
def readAt (o : Oracle) (t : Nat) : Nat := (o.rd t).1

/-- `READ_CYCLE` answered by the oracle at load `t`. -/
def rcAt (o : Oracle) (t : Nat) : Nat := (o.rd t).2

/-- `isBehind = read > this._write || cycle < this._cycle`. -/
def behind (o : Oracle) (t : Nat) (s : WS) : Bool :=
  decide (s.wcur < readAt o t) || decide (rcAt o t < s.cyc)

/-- `(isBehind ? read : this._sharedBuffer.length)`, the exclusive bound of
the contiguous region available to the writer. -/
def boundAt (o : Oracle) (t : Nat) (s : WS) : Nat :=
  if behind o t s then readAt o t else s.buf.length

/-- The value of the source's `leftover` after `leftover -= EXTRA_SPACE + 1`
when it is positive (`boundAt - _write - (EXTRA_SPACE + 1)` over ℤ). -/
def leftoverAt (c : Cfg) (o : Oracle) (t : Nat) (s : WS) : Nat :=
  boundAt o t s - s.wcur - (c.extraSpace + 1)

/-- The write engine `Write(sync, toWrite)` (writer.js lines 362-405).
Returns `(backpressure flag, frames stored by this call, state, next load
counter)`; a JS `throw` is `.error (e, state-at-throw)`.

The branches, in source order:
1. `if (!this.writable) return false;`
2. load `READ_INDEX`/`READ_CYCLE`, compute `isBehind` and `leftover`;
   `throw 'overwritten'` when `leftover < 0`, `throw 'Read further than
   expected'` when `cycle > this._cycle`;
3. `leftover ≤ 0 && isBehind`: sync → spin on `Atomics.wait` (exhaustion
   throws) then recurse with `sync = false`; async → `waitAsync`: if it
   settles immediately recurse, else rebind `this.write` to `FakeWrite`,
   set `_needDrain`, push the payload, return `true`;
4. `leftover ≤ 0 && !isBehind`: wrap (see `wrapState`) and recurse;
5. `leftover < byteLength(toWrite) + EXTRA_SPACE`: store the first
   `leftover` bytes with NOT_FINAL = 1 and recurse on the rest;
6. otherwise store the whole payload with NOT_FINAL = 0, return `false`. -/
def Write (c : Cfg) (o : Oracle) :
    Nat → Bool → Nat → WS → List Nat →
    Except (WErr × WS) (Bool × List (List Nat × Nat) × WS × Nat)
  | 0, _, _, s, _ => .error (.fuelOut, s)
  | Nat.succ fuel, sync, t, s, p =>
    if s.destroyed || s.ending then .ok (false, [], s, t)
    else if boundAt o t s < s.wcur then .error (.overwritten, s)
    else if s.cyc < rcAt o t then .error (.readAhead, s)
    else if boundAt o t s - s.wcur ≤ c.extraSpace + 1 then
      if behind o t s then
        if sync then
          if o.spinOk t then Write c o fuel false (t + 1) s p
          else .error (.tooLong, s)
        else
          if o.wa t then
            .ok (true, [],
              { s with mode := Mode.buffering, needDrain := true,
                       extra := s.extra ++ [p] }, t + 1)
          else Write c o fuel sync (t + 1) s p
      else
        Write c o fuel sync (t + 1) (wrapState s) p
    else if leftoverAt c o t s < p.length + c.extraSpace then
      match Write c o fuel sync (t + 1)
          (storeFrame c s (p.take (leftoverAt c o t s)) 1).1
          (p.drop (leftoverAt c o t s)) with
      | .ok (b, fs, s2, t2) =>
          .ok (b, (storeFrame c s (p.take (leftoverAt c o t s)) 1).2 :: fs, s2, t2)
      | .error e => .error e
    else
      .ok (false, [(storeFrame c s p 0).2], (storeFrame c s p 0).1, t + 1)

/-- A fresh writer over a zeroed shared buffer of `n` bytes, shared state
words zeroed (`EMPTY`). -/
def initWS (n : Nat) : WS :=
  { buf := List.replicate n 0, wcur := 0, cyc := 0, wIdx := 0, wCyc := 0,
    wProc := Sign.empty, procLocal := Sign.empty, mode := Mode.normal,
    extra := [], ready := false, ended := false, closed := false,
    ending := false, destroyed := false, finished := false,
    needDrain := false, watching := false, watchStarted := false,
    crashed := false, errored := none, events := [] }

/-- Extract the writer state from a `Write` result. -/
def wsOf (r : Except (WErr × WS) (Bool × List (List Nat × Nat) × WS × Nat)) : WS :=
  match r with
  | .ok (_, _, s, _) => s
  | .error (_, s) => s

/-- Extract the boolean result of a completed `Write`. -/
def retOf (r : Except (WErr × WS) (Bool × List (List Nat × Nat) × WS × Nat)) :
    Option Bool :=
  match r with
  | .ok (b, _, _, _) => some b
  | .error _ => none

/-- Extract the frames stored by a completed `Write`. -/
def framesOf (r : Except (WErr × WS) (Bool × List (List Nat × Nat) × WS × Nat)) :
    List (List Nat × Nat) :=
  match r with
  | .ok (_, fs, _, _) => fs
  | .error _ => []

/-- Scenario S1: `|B| = 64`, POSTFIX_SIZE = 0, empty ring, the reader
drained instantly, so every load of (`READ_INDEX`, `READ_CYCLE`) answers
`(0, 0)`. -/
def oracleS1 : Oracle :=
  { rd := fun _ => (0, 0), wa := fun _ => true, spinOk := fun _ => true,
    rp := fun _ => Sign.ready, syncWa := fun _ => none }

/-- The result of `write_sync("AB")` in scenario S1 (`"AB"` = bytes 65 66). -/
def resS1 : Except (WErr × WS) (Bool × List (List Nat × Nat) × WS × Nat) :=
  Write { post := 0 } oracleS1 10 true 0 (initWS 64) [65, 66]

/-- C1: on a 64-byte ring with POSTFIX_SIZE = 0, an empty ring and an
instantly-drained reader, `write_sync("AB")` returns `false`, stores the
little-endian length 2 in `B[0..4]`, the payload in `B[4..6]`, the
NOT_FINAL byte 0 at `B[6]`, publishes `WRITE_INDEX = 7`, and leaves
`WRITE_CYCLE = 0`. -/
theorem writeSync_small_payload_scenario :
    retOf resS1 = some false ∧
    (wsOf resS1).buf.take 7 = [2, 0, 0, 0, 65, 66, 0] ∧
    (wsOf resS1).wIdx = 7 ∧
    (wsOf resS1).wCyc = 0 := by
  decide

/-- `status === READY_SIGN || status === EMPTY_SIGN`, the "still active"
test used by `destroy`. -/
def isActive (g : Sign) : Bool := g == Sign.ready || g == Sign.empty

/-- `destroy(err)` (writer.js lines 304-326):
```
if (!this.writable) return;
this._watching = false;
const readStatus = Atomics.load(this._sharedState, READ_PROCESS);
const writeStatus = Atomics.load(this._sharedState, WRITE_PROCESS);
... if (writeActive && readActive) store WRITE_PROCESS = err ? FAILED : FINISHED, notify;
if (err) { this._errored = err; this.emit('error', err); }
this._destroyed = true; this._closed = true; this.emit('close');
```
`WRITE_PROCESS` is writer-owned, so its load answers `s.wProc`. -/
def destroyFn (o : Oracle) (t : Nat) (err : Option Err) (s : WS) : WS × Nat :=
  if s.destroyed || s.ending then (s, t)
  else
    ({ s with
        watching := false,
        wProc :=
          if isActive s.wProc && isActive (o.rp t) then
            (if err.isSome then Sign.failed else Sign.finished)
          else s.wProc,
        errored := if err.isSome then err else s.errored,
        destroyed := true,
        closed := true,
        events := s.events ++
          (match err with
           | some e => [Ev.errorEv e, Ev.closeEv]
           | none => [Ev.closeEv]) }, t + 1)

/-- The orderly-end spin loop of `end()` (writer.js lines 283-287):
```
while (status !== FAILED_SIGN || status !== FINISHED_SIGN) {
  Atomics.wait(this._sharedState, READ_PROCESS, status, SPIN_TIMEOUT);
  status = Atomics.load(this._sharedState, READ_PROCESS);
  if (++spins === FINISH_SPINS) break;
}
```
The loop condition is kept verbatim (it is a tautology), so the loop can
only exit through the `break` after exactly `FINISH_SPINS` reloads; the
second argument counts the remaining reloads. -/
def endLoop (o : Oracle) : Nat → Nat → Sign → Sign
  | _, 0, status => status
  | t, Nat.succ n, status =>
    if (status != Sign.failed) || (status != Sign.finished) then
      if n = 0 then o.rp t else endLoop o (t + 1) n (o.rp t)
    else status

/-- The state mutations of `end()` before the spin loop: set local
`_process = FINISHING`, clear `_watching`, set `_ending`, and publish
`WRITE_PROCESS = FINISHING` when `READ_PROCESS` is `READY`, `EMPTY` or
`FINISHING`. -/
def endPrep (o : Oracle) (t : Nat) (s : WS) : WS :=
  if o.rp t = Sign.ready ∨ o.rp t = Sign.empty ∨ o.rp t = Sign.finishing then
    { s with procLocal := Sign.finishing, watching := false, ending := true,
             wProc := Sign.finishing }
  else
    { s with procLocal := Sign.finishing, watching := false, ending := true }

/-- `end()` (writer.js lines 269-302).  `origin` is the first load of
`READ_PROCESS` (at counter `t`); the spin loop reloads at `t+1 … t+10`;
the outcome test is `status === FAILED || status === origin`, with the
`status === origin` arm checked first inside. -/
def endFn (o : Oracle) (t : Nat) (s : WS) : WS × Nat :=
  if s.destroyed || s.ending then (s, t)
  else
    if endLoop o (t + 1) FINISH_SPINS (o.rp t) = Sign.failed ∨
       endLoop o (t + 1) FINISH_SPINS (o.rp t) = o.rp t then
      if endLoop o (t + 1) FINISH_SPINS (o.rp t) = o.rp t then
        destroyFn o (t + 1 + FINISH_SPINS) (some Err.finishTimeout)
          { endPrep o t s with ending := false }
      else
        destroyFn o (t + 1 + FINISH_SPINS) (some Err.finishReaderFailed)
          { endPrep o t s with ending := false }
    else
      ({ endPrep o t s with
          wProc := Sign.finished, procLocal := Sign.finished,
          finished := true, ended := true,
          events := (endPrep o t s).events ++ [Ev.finishEv] }, t + 1 + FINISH_SPINS)

/-- `synchronize()` (writer.js lines 199-225), the part that runs
synchronously.  The `READY` branch returns directly after emitting
`ready`; the terminal branch destroys; the `EMPTY` branch registers
`waitAsync(READ_PROCESS, EMPTY, START_TIMEOUT)`: `none` leaves the
continuation pending (see `syncThenFn`), an immediate `not-equal` calls
`this._synchronize()` — a method that does not exist, modelled by the
`crashed` flag — and an immediate timeout destroys. -/
def synchronizeFn (o : Oracle) (t : Nat) (s : WS) : WS × Nat :=
  if o.rp t = Sign.ready then
    ({ s with procLocal := Sign.ready, wProc := Sign.ready,
              ready := true, events := s.events ++ [Ev.readyEv] }, t + 1)
  else if o.rp t ≠ Sign.empty then
    destroyFn o (t + 1) (some Err.readerExitBeforeSync)
      { s with procLocal := Sign.ready, wProc := Sign.ready }
  else
    match o.syncWa t with
    | none =>
        ({ s with procLocal := Sign.ready, wProc := Sign.ready }, t + 1)
    | some WaitRes.notEqual =>
        ({ s with procLocal := Sign.ready, wProc := Sign.ready,
                  crashed := true }, t + 1)
    | some _ =>
        destroyFn o (t + 1) (some Err.readerStartTimeout)
          { s with procLocal := Sign.ready, wProc := Sign.ready }

/-- The `.then` continuation of `synchronize` (writer.js lines 216-224):
on `ok`, re-read `READ_PROCESS`; if `READY`, set `_watching`, `_ready`,
emit `ready` and invoke `this._watch()` (recorded by `watchStarted`). -/
def syncThenFn (o : Oracle) (t : Nat) (v : WaitRes) (s : WS) : WS × Nat :=
  if v ≠ WaitRes.okRes then
    destroyFn o t (some Err.readerStartTimeout) s
  else if o.rp t ≠ Sign.ready then
    destroyFn o (t + 1) (some Err.readerExitAtSync) s
  else
    ({ s with watching := true, ready := true,
              events := s.events ++ [Ev.readyEv], watchStarted := true }, t + 1)

/-- Extract the error of a thrown `Write`. -/
def errOf (r : Except (WErr × WS) (Bool × List (List Nat × Nat) × WS × Nat)) :
    Option WErr :=
  match r with
  | .error (e, _) => some e
  | .ok _ => none

/-- A writer mid-stream at cursor 12 of a 16-byte ring, same cycle as the
reader which stands at `READ_INDEX = 12`: the next write wraps. -/
def sWrap : WS := { initWS 16 with wcur := 12, wIdx := 12 }

/-- Reader oracle for the wrap scenario: every load answers
(`READ_INDEX`, `READ_CYCLE`) = (12, 0). -/
def oracleWrap : Oracle :=
  { rd := fun _ => (12, 0), wa := fun _ => true, spinOk := fun _ => true,
    rp := fun _ => Sign.ready, syncWa := fun _ => none }

/-- The result of writing one byte from `sWrap`: the engine wraps, then
stores the frame at offset 0. -/
def resWrap : Except (WErr × WS) (Bool × List (List Nat × Nat) × WS × Nat) :=
  Write { post := 0 } oracleWrap 10 false 0 sWrap [65]

/-- C3: the wrap branch stores `WRITE_CYCLE = this._cycle++` — the value
published is the cycle before the increment.  Concretely, on the first
wrap the local cycle becomes 1 while the published `WRITE_CYCLE` is
still 0, so `WRITE_CYCLE` neither reflects the current cycle nor
advances on this wrap (it held 0 already before). -/
theorem wrap_publishes_stale_cycle :
    retOf resWrap = some false ∧
    (wsOf resWrap).cyc = 1 ∧
    (wsOf resWrap).wCyc = 0 ∧
    (wsOf resWrap).wCyc ≠ (wsOf resWrap).cyc := by
  decide

/-- Oracle for the orderly-end scenario in which the reader has already
finished: every `READ_PROCESS` load answers `FINISHED`. -/
def oracleFinished : Oracle :=
  { rd := fun _ => (0, 0), wa := fun _ => true, spinOk := fun _ => true,
    rp := fun _ => Sign.finished, syncWa := fun _ => none }

/-- A synchronized, steady-state writer (both process words `READY`). -/
def sSteady : WS :=
  { initWS 64 with wProc := Sign.ready, procLocal := Sign.ready,
                   ready := true, watching := true }

/-- C7: because the spin-loop condition
`status !== FAILED || status !== FINISHED` is a tautology, `end()` never
exits the loop on observing a terminal sign.  When `READ_PROCESS` is
already `FINISHED` at the first load, `origin = FINISHED`, the loop burns
the whole `FINISH_SPINS` budget, and the outcome test `status === origin`
then destroys with the finish-timeout error instead of storing
`WRITE_PROCESS = FINISHED` and emitting `finish`. -/
theorem end_observing_finished_destroys :
    ((endFn oracleFinished 0 sSteady).1).errored = some Err.finishTimeout ∧
    ((endFn oracleFinished 0 sSteady).1).destroyed = true ∧
    ((endFn oracleFinished 0 sSteady).1).finished = false ∧
    ((endFn oracleFinished 0 sSteady).1).ended = false ∧
    ((endFn oracleFinished 0 sSteady).1).wProc ≠ Sign.finished ∧
    ((endFn oracleFinished 0 sSteady).1).events =
      [Ev.errorEv Err.finishTimeout, Ev.closeEv] := by
  decide

/-- C9: `destroy` begins with `if (!this.writable) return;` and
`writable` is `!destroyed && !ending`, so a `destroy(err)` issued while
an orderly end is in progress (ending set, destroyed clear) is a complete
no-op: no sign is published, the error is not recorded, and neither
`error` nor `close` is emitted. -/
theorem destroy_noop_while_ending (o : Oracle) (t : Nat) (e : Option Err)
    (s : WS) (h1 : s.ending = true) (h2 : s.destroyed = false) :
    destroyFn o t e s = (s, t) := by
  simp [destroyFn, h1]

/-- A writer whose orderly end is in progress. -/
def sEnding : WS := { initWS 8 with ending := true }

/-- Witness for `destroy_noop_while_ending` at a concrete state. -/
theorem destroy_noop_while_ending_witness :
    sEnding.ending = true ∧ sEnding.destroyed = false ∧
    destroyFn oracleS1 3 (some Err.finishTimeout) sEnding = (sEnding, 3) :=
  ⟨rfl, rfl, destroy_noop_while_ending oracleS1 3 (some Err.finishTimeout) sEnding rfl rfl⟩

/-- Oracle whose reader words claim `READ_CYCLE = 1` while the writer is
still on cycle 0: the reader is ahead of the writer. -/
def oracleAhead : Oracle :=
  { rd := fun _ => (0, 1), wa := fun _ => true, spinOk := fun _ => true,
    rp := fun _ => Sign.ready, syncWa := fun _ => none }

/-- The result of a write under `oracleAhead` from a fresh 16-byte ring. -/
def resAhead : Except (WErr × WS) (Bool × List (List Nat × Nat) × WS × Nat) :=
  Write { post := 0 } oracleAhead 10 false 0 (initWS 16) [65]

/-- C6 counterexample: with `READ_CYCLE > cycle` the write throws
`Read further than expected` to its caller, but nothing catches it:
the writer is NOT transitioned to `destroyed`, and neither `error` nor
`close` is emitted — the state is exactly the input state. -/
theorem fault_throw_no_destroy_cex :
    errOf resAhead = some WErr.readAhead ∧
    wsOf resAhead = initWS 16 ∧
    (wsOf resAhead).destroyed = false ∧
    (wsOf resAhead).closed = false ∧
    (wsOf resAhead).events = [] := by
  decide

/-- C6 amended: on a writable writer, when the fault condition holds at
entry — `(behind ? READ_INDEX : |B|) < write_cursor`, or
`READ_CYCLE > cycle` — `Write` throws the corresponding corruption error
synchronously to the caller (`overwritten` checked first), leaving the
writer state untouched: it does not transition to `destroyed` and emits
no `error`/`close`. -/
theorem write_fault_throws (c : Cfg) (o : Oracle) (fuel : Nat) (sync : Bool)
    (t : Nat) (s : WS) (p : List Nat)
    (h1 : s.destroyed = false) (h2 : s.ending = false)
    (hf : boundAt o t s < s.wcur ∨ s.cyc < rcAt o t) :
    Write c o (fuel + 1) sync t s p =
      .error ((if boundAt o t s < s.wcur then WErr.overwritten
               else WErr.readAhead), s) := by
  by_cases hov : boundAt o t s < s.wcur
  · simp [Write, h1, h2, hov]
  · have hra : s.cyc < rcAt o t := by
      rcases hf with h | h
      · exact absurd h hov
      · exact h
    simp [Write, h1, h2, hov, hra]

/-- Witness for `write_fault_throws` at the `oracleAhead` input. -/
theorem write_fault_throws_witness :
    (initWS 16).destroyed = false ∧ (initWS 16).ending = false ∧
    ((boundAt oracleAhead 0 (initWS 16) < (initWS 16).wcur) ∨
      (initWS 16).cyc < rcAt oracleAhead 0) ∧
    Write { post := 0 } oracleAhead 10 false 0 (initWS 16) [65] =
      .error ((if boundAt oracleAhead 0 (initWS 16) < (initWS 16).wcur
               then WErr.overwritten else WErr.readAhead), initWS 16) :=
  ⟨rfl, rfl, Or.inr (by decide),
    write_fault_throws { post := 0 } oracleAhead 9 false 0 (initWS 16) [65]
      rfl rfl (Or.inr (by decide))⟩

/-- C8 counterexample: `synchronize` with `READ_PROCESS` already `READY`
sets `ready` and emits `ready`, then returns — `this._watch()` is never
invoked and `_watching` stays false, so the liveness watch is not begun. -/
theorem synchronize_ready_no_watch_cex :
    ((synchronizeFn oracleS1 0 (initWS 8)).1).ready = true ∧
    ((synchronizeFn oracleS1 0 (initWS 8)).1).events = [Ev.readyEv] ∧
    ((synchronizeFn oracleS1 0 (initWS 8)).1).watchStarted = false ∧
    ((synchronizeFn oracleS1 0 (initWS 8)).1).watching = false := by
  decide

/-- C8 amended: when `READ_PROCESS` is already `READY` at the initial
load, `synchronize` publishes `WRITE_PROCESS = READY`, sets the local
ready flag and emits `ready`, but returns without beginning the liveness
watch: every other field — `watching` and the `watchStarted`
instrumentation included — is left unchanged.  The watch begins only on
the asynchronous path (`syncThenFn`). -/
theorem synchronize_ready_skips_watch (o : Oracle) (t : Nat) (s : WS)
    (h : o.rp t = Sign.ready) :
    synchronizeFn o t s =
      ({ s with procLocal := Sign.ready, wProc := Sign.ready,
                ready := true, events := s.events ++ [Ev.readyEv] }, t + 1) := by
  simp [synchronizeFn, h]

/-- Witness for `synchronize_ready_skips_watch`. -/
theorem synchronize_ready_skips_watch_witness :
    oracleS1.rp 0 = Sign.ready ∧
    synchronizeFn oracleS1 0 (initWS 8) =
      ({ initWS 8 with procLocal := Sign.ready, wProc := Sign.ready,
                       ready := true,
                       events := (initWS 8).events ++ [Ev.readyEv] }, 1) :=
  ⟨rfl, synchronize_ready_skips_watch oracleS1 0 (initWS 8) rfl⟩

/-- `_drain()` (writer.js lines 256-267):
```
do {
  var item = this._extraBuffer.shift();
  var status = Write.call(this, false, item);
  if (status) return false;
} while (this._extraBuffer.length);
this.write = Write.bind(this, false);
this._needDrain = false;
this.emit('drain');
return true;
```
`shift()` on an empty queue yields `undefined` and the subsequent
`Buffer.byteLength(undefined)` throws (`WErr.undef`); the loop itself is
fueled by its second argument.  `drainDone` is the successful exit:
rebind `this.write` to the normal engine, clear `_needDrain`, emit
`drain`. -/
def drainDone (s : WS) : WS :=
  { s with mode := Mode.normal, needDrain := false,
           events := s.events ++ [Ev.drainEv] }

def drain (c : Cfg) (o : Oracle) (fuel : Nat) :
    Nat → Nat → WS → Except (WErr × WS) (Bool × List (List Nat × Nat) × WS × Nat)
  | 0, _, s => .error (.fuelOut, s)
  | Nat.succ lf, t, s =>
    match s.extra with
    | [] => .error (.undef, s)
    | item :: rest =>
      match Write c o fuel false t { s with extra := rest } item with
      | .error e => .error e
      | .ok (status, fs, s1, t1) =>
        if status then .ok (false, fs, s1, t1)
        else if s1.extra.isEmpty then .ok (true, fs, drainDone s1, t1)
        else
          match drain c o fuel lf t1 s1 with
          | .error e => .error e
          | .ok (b2, fs2, s2, t2) => .ok (b2, fs ++ fs2, s2, t2)

/-- The default configuration used by the concrete scenarios:
POSTFIX_SIZE = 0, so EXTRA_SPACE = 4. -/
def cfg0 : Cfg := { post := 0 }

@[simp] theorem storeFrame_events (c : Cfg) (s : WS) (d : List Nat) (nf : Nat) :
    ((storeFrame c s d nf).1).events = s.events := rfl

@[simp] theorem storeFrame_mode (c : Cfg) (s : WS) (d : List Nat) (nf : Nat) :
    ((storeFrame c s d nf).1).mode = s.mode := rfl

@[simp] theorem storeFrame_extra (c : Cfg) (s : WS) (d : List Nat) (nf : Nat) :
    ((storeFrame c s d nf).1).extra = s.extra := rfl

@[simp] theorem storeFrame_destroyed (c : Cfg) (s : WS) (d : List Nat) (nf : Nat) :
    ((storeFrame c s d nf).1).destroyed = s.destroyed := rfl

@[simp] theorem storeFrame_ending (c : Cfg) (s : WS) (d : List Nat) (nf : Nat) :
    ((storeFrame c s d nf).1).ending = s.ending := rfl

@[simp] theorem writeBytesAt_length (b : List Nat) (off : Nat) (d : List Nat) :
    (writeBytesAt b off d).length = b.length := by
  simp [writeBytesAt]
  omega

@[simp] theorem storeFrame_buflen (c : Cfg) (s : WS) (d : List Nat) (nf : Nat) :
    ((storeFrame c s d nf).1).buf.length = s.buf.length := by
  simp [storeFrame]

@[simp] theorem wrapState_events (s : WS) : (wrapState s).events = s.events := rfl

@[simp] theorem wrapState_mode (s : WS) : (wrapState s).mode = s.mode := rfl

@[simp] theorem wrapState_extra (s : WS) : (wrapState s).extra = s.extra := rfl

@[simp] theorem wrapState_destroyed (s : WS) :
    (wrapState s).destroyed = s.destroyed := rfl

@[simp] theorem wrapState_ending (s : WS) : (wrapState s).ending = s.ending := rfl

@[simp] theorem wrapState_buf (s : WS) : (wrapState s).buf = s.buf := rfl

/-- The facets of the writer state that a single `Write` call preserves
(or, for the overflow queue and mode, changes in the one stated way). -/
def WProp (s : WS) (r : Except (WErr × WS) (Bool × List (List Nat × Nat) × WS × Nat)) :
    Prop :=
  match r with
  | .ok (b, _, s2, _) =>
      s2.events = s.events ∧ s2.destroyed = s.destroyed ∧ s2.ending = s.ending ∧
      s2.buf.length = s.buf.length ∧
      (s.mode = Mode.buffering → s2.mode = Mode.buffering) ∧
      (b = true → s2.mode = Mode.buffering ∧ ∃ q, s2.extra = s.extra ++ [q]) ∧
      (b = false → s2.extra = s.extra ∧ s2.mode = s.mode)
  | .error (_, s2) =>
      s2.events = s.events ∧ s2.mode = s.mode ∧ s2.extra = s.extra ∧
      s2.buf.length = s.buf.length ∧ s2.destroyed = s.destroyed ∧
      s2.ending = s.ending

theorem wprop_trans (s s1 : WS)
    (r : Except (WErr × WS) (Bool × List (List Nat × Nat) × WS × Nat))
    (h1 : s1.events = s.events) (h2 : s1.mode = s.mode) (h3 : s1.extra = s.extra)
    (h4 : s1.buf.length = s.buf.length) (h5 : s1.destroyed = s.destroyed)
    (h6 : s1.ending = s.ending) (h : WProp s1 r) : WProp s r := by
  cases r with
  | ok v =>
    obtain ⟨b, fs, s2, t2⟩ := v
    obtain ⟨e1, d1, n1, b1, m1, u1, f1⟩ := h
    refine ⟨e1.trans h1, d1.trans h5, n1.trans h6, b1.trans h4, ?_, ?_, ?_⟩
    · intro hm
      exact m1 (h2.trans hm)
    · intro hb
      obtain ⟨hmo, q, hq⟩ := u1 hb
      exact ⟨hmo, q, by rw [hq, h3]⟩
    · intro hb
      obtain ⟨hx, hmo⟩ := f1 hb
      exact ⟨hx.trans h3, hmo.trans h2⟩
  | error v =>
    obtain ⟨e, s2⟩ := v
    obtain ⟨e1, m1, x1, b1, d1, n1⟩ := h
    exact ⟨e1.trans h1, m1.trans h2, x1.trans h3, b1.trans h4, d1.trans h5,
      n1.trans h6⟩

/-- Preservation facts about `Write`: a single call never touches the
event log, the writable flags or the buffer length; it changes the
overflow queue only by appending the backpressured payload (exactly when
it returns `true`, which also leaves the engine in buffering mode), and
it never leaves buffering mode. -/
theorem write_pres (c : Cfg) (o : Oracle) :
    ∀ (fuel : Nat) (sync : Bool) (t : Nat) (s : WS) (p : List Nat),
    WProp s (Write c o fuel sync t s p) := by
  intro fuel
  induction fuel with
  | zero =>
    intro sync t s p
    simp [Write, WProp]
  | succ fuel ih =>
    intro sync t s p
    rw [Write]
    by_cases hg : (s.destroyed || s.ending) = true
    · rw [if_pos hg]
      exact ⟨rfl, rfl, rfl, rfl, fun hm => hm, (fun hb => nomatch hb),
        fun _ => ⟨rfl, rfl⟩⟩
    · rw [if_neg hg]
      by_cases hov : boundAt o t s < s.wcur
      · rw [if_pos hov]
        exact ⟨rfl, rfl, rfl, rfl, rfl, rfl⟩
      · rw [if_neg hov]
        by_cases hra : s.cyc < rcAt o t
        · rw [if_pos hra]
          exact ⟨rfl, rfl, rfl, rfl, rfl, rfl⟩
        · rw [if_neg hra]
          by_cases hlo : boundAt o t s - s.wcur ≤ c.extraSpace + 1
          · rw [if_pos hlo]
            by_cases hbh : behind o t s = true
            · rw [if_pos hbh]
              cases sync with
              | true =>
                rw [if_pos rfl]
                by_cases hsp : o.spinOk t = true
                · rw [if_pos hsp]
                  exact ih false (t + 1) s p
                · rw [if_neg hsp]
                  exact ⟨rfl, rfl, rfl, rfl, rfl, rfl⟩
              | false =>
                rw [if_neg (by simp)]
                by_cases hwa : o.wa t = true
                · rw [if_pos hwa]
                  exact ⟨rfl, rfl, rfl, rfl, fun _ => rfl,
                    fun _ => ⟨rfl, p, rfl⟩, (fun hb => nomatch hb)⟩
                · rw [if_neg hwa]
                  exact ih false (t + 1) s p
            · rw [if_neg hbh]
              exact wprop_trans s (wrapState s) _ rfl rfl rfl rfl rfl rfl
                (ih sync (t + 1) (wrapState s) p)
          · rw [if_neg hlo]
            by_cases hsp : leftoverAt c o t s < p.length + c.extraSpace
            · rw [if_pos hsp]
              have hrec := ih sync (t + 1)
                (storeFrame c s (p.take (leftoverAt c o t s)) 1).1
                (p.drop (leftoverAt c o t s))
              have hrec2 : WProp s (Write c o fuel sync (t + 1)
                  (storeFrame c s (p.take (leftoverAt c o t s)) 1).1
                  (p.drop (leftoverAt c o t s))) :=
                wprop_trans s _ _ (by simp) (by simp) (by simp) (by simp)
                  (by simp) (by simp) hrec
              cases hmr : Write c o fuel sync (t + 1)
                  (storeFrame c s (p.take (leftoverAt c o t s)) 1).1
                  (p.drop (leftoverAt c o t s)) with
              | ok v =>
                obtain ⟨b, fs, s2, t2⟩ := v
                rw [hmr] at hrec2
                exact hrec2
              | error e =>
                rw [hmr] at hrec2
                exact hrec2
            · rw [if_neg hsp]
              exact ⟨by simp, by simp, by simp, by simp,
                fun hm => by simp [hm], (fun hb => nomatch hb),
                fun _ => ⟨by simp, by simp⟩⟩

/-- The two payloads buffered while `need_drain` was set in the C4
scenario. -/
def cq1 : List Nat := [1, 2, 3, 4, 5, 6, 7, 8, 9, 10]

/-- The second buffered payload of the C4 scenario. -/
def cq2 : List Nat := [101, 102]

/-- C4 scenario start: a 16-byte ring (POSTFIX_SIZE = 0); the writer has
wrapped once (local cycle 1, cursor 0) and is in buffering mode with the
queue `[cq1, cq2]`; the reader is still on lap 0 at `READ_INDEX = 12`. -/
def sC4 : WS :=
  { initWS 16 with cyc := 1, mode := Mode.buffering,
                   extra := [cq1, cq2], needDrain := true }

/-- Reader loads for the C4 trace: lap 0 at 12 during the first drain,
then caught up on lap 1 at 12, then on lap 2 at 7 and 15. -/
def oracleC4 : Oracle :=
  { rd := fun u =>
      [(12, 0), (12, 0), (12, 1), (12, 1), (12, 1), (7, 2), (15, 2)].getD u (15, 2),
    wa := fun _ => true, spinOk := fun _ => true,
    rp := fun _ => Sign.ready, syncWa := fun _ => none }

/-- Run `n` drain wakes (each modelling one resolution of the registered
`waitAsync(READ_INDEX, …)` invoking `this._drain()`), accumulating the
frames the ring receives. -/
def runWakes (c : Cfg) (o : Oracle) (fuel lf : Nat) :
    Nat → Nat → WS → List (List Nat × Nat) → WS × List (List Nat × Nat)
  | 0, _, s, acc => (s, acc)
  | Nat.succ n, t, s, acc =>
    match drain c o fuel lf t s with
    | .ok (_, fs, s1, t1) => runWakes c o fuel lf n t1 s1 (acc ++ fs)
    | .error (_, s1) => (s1, acc)

/-- The full three-wake C4 trace. -/
def wakesC4 : WS × List (List Nat × Nat) := runWakes cfg0 oracleC4 30 30 3 0 sC4 []

/-- C4 counterexample: `cq1` is dequeued first, its head is framed, its
backpressured tail is pushed to the BACK of the queue (behind `cq2`,
which arrived later); after the next wakes everything is flushed (queue
empty, `drain` emitted), but the ring receives `cq1`'s head, then all of
`cq2`, then `cq1`'s tail — not FIFO arrival order. -/
theorem drain_reorders_backpressured_payload :
    (wakesC4.1).extra = [] ∧
    (wakesC4.1).needDrain = false ∧
    (wakesC4.1).events = [Ev.drainEv] ∧
    wakesC4.2 = [([1, 2, 3, 4, 5, 6, 7], 1), ([101, 102], 0),
                 ([8, 9, 10], 1), ([], 0)] ∧
    ((wakesC4.2).map Prod.fst).flatten ≠ cq1 ++ cq2 := by
  decide

/-- C4 amended: `_drain` dequeues the overflow queue head-first (FIFO
within one pass), but when the dequeued payload meets backpressure again
the engine pushes the unwritten remainder onto the BACK of the queue —
behind every payload that arrived after it — and the pass stops without
a drain event, so arrival order is not preserved across repeated
backpressure/drain events. -/
theorem drain_requeues_remainder_at_back (c : Cfg) (o : Oracle)
    (fuel lf t : Nat) (s : WS) (x : List Nat) (rest : List (List Nat))
    (fs : List (List Nat × Nat)) (s1 : WS) (t1 : Nat)
    (hq : s.extra = x :: rest)
    (hw : Write c o fuel false t { s with extra := rest } x =
      .ok (true, fs, s1, t1)) :
    (∃ r, s1.extra = rest ++ [r]) ∧
    drain c o fuel (lf + 1) t s = .ok (false, fs, s1, t1) := by
  constructor
  · have hp := write_pres c o fuel false t { s with extra := rest } x
    rw [hw] at hp
    obtain ⟨-, -, -, -, -, u1, -⟩ := hp
    obtain ⟨-, q, hq2⟩ := u1 rfl
    exact ⟨q, hq2⟩
  · rw [drain, hq]
    simp [hw]

/-- The writer state after the first C4 drain wake processed `cq1`. -/
def s1C4 : WS :=
  wsOf (Write cfg0 oracleC4 30 false 0 { sC4 with extra := [cq2] } cq1)

/-- Witness for `drain_requeues_remainder_at_back` on the first C4 wake:
the remainder `[8,9,10]` of `cq1` ends up behind `cq2`. -/
theorem drain_requeues_remainder_at_back_witness :
    sC4.extra = cq1 :: [cq2] ∧
    Write cfg0 oracleC4 30 false 0 { sC4 with extra := [cq2] } cq1 =
      .ok (true, [([1, 2, 3, 4, 5, 6, 7], 1)], s1C4, 2) ∧
    ((∃ r, s1C4.extra = [cq2] ++ [r]) ∧
      drain cfg0 oracleC4 30 (29 + 1) 0 sC4 =
        .ok (false, [([1, 2, 3, 4, 5, 6, 7], 1)], s1C4, 2)) :=
  ⟨rfl, rfl,
    drain_requeues_remainder_at_back cfg0 oracleC4 30 29 0 sC4 cq1 [cq2]
      [([1, 2, 3, 4, 5, 6, 7], 1)] s1C4 2 rfl rfl⟩

/-- The public `this.write(...)` entry: dispatch on the current binding.
In buffering mode it is `FakeWrite`, which only pushes and returns
`true`; in normal mode it is `Write.bind(this, false)`. -/
def dispatchWrite (c : Cfg) (o : Oracle) (fuel t : Nat) (s : WS) (p : List Nat) :
    (WS × Nat) × Option Bool :=
  match s.mode with
  | Mode.buffering => (({ s with extra := s.extra ++ [p] }, t), some true)
  | Mode.normal =>
    match Write c o fuel false t s p with
    | .ok (b, _, s2, t2) => ((s2, t2), some b)
    | .error (_, s2) => ((s2, t), none)

theorem destroyFn_mode (o : Oracle) (t : Nat) (e : Option Err) (s : WS) :
    ((destroyFn o t e s).1).mode = s.mode := by
  unfold destroyFn
  split
  · rfl
  · rfl

theorem dispatchWrite_buffering (c : Cfg) (o : Oracle) (fuel t : Nat)
    (s : WS) (p : List Nat) (h : s.mode = Mode.buffering) :
    dispatchWrite c o fuel t s p =
      (({ s with extra := s.extra ++ [p] }, t), some true) := by
  simp [dispatchWrite, h]

/-- C10: `destroy` never touches the `this.write` binding, so once
backpressure has rebound it to `FakeWrite`, a destroyed writer still has
the buffering stub: every subsequent `write(p)` appends `p` to the
overflow queue and returns `true` — `FakeWrite` performs no writable
check. -/
theorem buffering_survives_destroy (c : Cfg) (o o2 : Oracle)
    (fuel t t2 : Nat) (e : Option Err) (s : WS) (p : List Nat)
    (h : s.mode = Mode.buffering) :
    ((destroyFn o t e s).1).mode = Mode.buffering ∧
    dispatchWrite c o2 fuel t2 ((destroyFn o t e s).1) p =
      (({ (destroyFn o t e s).1 with
            extra := ((destroyFn o t e s).1).extra ++ [p] }, t2), some true) := by
  have hm : ((destroyFn o t e s).1).mode = Mode.buffering :=
    (destroyFn_mode o t e s).trans h
  exact ⟨hm, dispatchWrite_buffering c o2 fuel t2 ((destroyFn o t e s).1) p hm⟩

/-- A buffering writer about to be destroyed. -/
def sBuf : WS := { initWS 8 with mode := Mode.buffering, extra := [[9]] }

/-- Witness for `buffering_survives_destroy`: after `destroy(err)` the
write entry still buffers and returns `true`. -/
theorem buffering_survives_destroy_witness :
    sBuf.mode = Mode.buffering ∧
    (((destroyFn oracleS1 0 (some Err.finishTimeout) sBuf).1).mode =
        Mode.buffering ∧
      dispatchWrite cfg0 oracleS1 5 1
          ((destroyFn oracleS1 0 (some Err.finishTimeout) sBuf).1) [7] =
        (({ (destroyFn oracleS1 0 (some Err.finishTimeout) sBuf).1 with
              extra := ((destroyFn oracleS1 0 (some Err.finishTimeout)
                sBuf).1).extra ++ [[7]] }, 1), some true)) :=
  ⟨rfl, buffering_survives_destroy cfg0 oracleS1 oracleS1 5 0 1
    (some Err.finishTimeout) sBuf [7] rfl⟩

theorem boundAt_le (o : Oracle) (t : Nat) (s : WS) (N : Nat)
    (hrd : ∀ u, (o.rd u).1 ≤ N) (hbuf : s.buf.length = N) :
    boundAt o t s ≤ N := by
  unfold boundAt
  split
  · exact hrd t
  · exact le_of_eq hbuf

theorem storeFrame_frame_of_fits (c : Cfg) (s : WS) (d : List Nat) (nf : Nat)
    (h : d.length ≤ s.buf.length - (s.wcur + PREFIX_SIZE)) :
    (storeFrame c s d nf).2 = (d, nf) := by
  simp [storeFrame, Nat.min_eq_left h]

/-- Frame-stream correctness of a completed `Write` call: whenever the
engine returns `false` (its emission finished within the call), the
frames it stored are zero or more NOT_FINAL = 1 frames followed by
exactly one NOT_FINAL = 0 frame, their payload bytes concatenate to the
argument, and when the payload cannot fit in one frame even in an empty
ring (`N < |p| + EXTRA_SPACE + 1`, i.e. `|p| > N - EXTRA_SPACE - 1`)
there are at least two frames, i.e. at least one split. -/
theorem write_frames (c : Cfg) (o : Oracle) (N : Nat)
    (hrd : ∀ u, (o.rd u).1 ≤ N) :
    ∀ (fuel : Nat) (sync : Bool) (t : Nat) (s : WS) (p : List Nat)
      (fs : List (List Nat × Nat)) (s2 : WS) (t2 : Nat),
      s.buf.length = N → s.destroyed = false → s.ending = false →
      Write c o fuel sync t s p = .ok (false, fs, s2, t2) →
      (∃ front lp, fs = front ++ [(lp, 0)] ∧ ∀ x ∈ front, x.2 = 1) ∧
      (fs.map Prod.fst).flatten = p ∧
      (N < p.length + c.extraSpace + 1 → 2 ≤ fs.length) := by
  intro fuel
  induction fuel with
  | zero =>
    intro sync t s p fs s2 t2 hbuf h1 h2 hres
    simp [Write] at hres
  | succ fuel ih =>
    intro sync t s p fs s2 t2 hbuf h1 h2 hres
    rw [Write] at hres
    have hgn : ¬((s.destroyed || s.ending) = true) := by simp [h1, h2]
    rw [if_neg hgn] at hres
    by_cases hov : boundAt o t s < s.wcur
    · rw [if_pos hov] at hres
      exact absurd hres (by simp)
    rw [if_neg hov] at hres
    by_cases hra : s.cyc < rcAt o t
    · rw [if_pos hra] at hres
      exact absurd hres (by simp)
    rw [if_neg hra] at hres
    by_cases hlo : boundAt o t s - s.wcur ≤ c.extraSpace + 1
    · rw [if_pos hlo] at hres
      by_cases hbh : behind o t s = true
      · rw [if_pos hbh] at hres
        cases sync with
        | true =>
          rw [if_pos rfl] at hres
          by_cases hsk : o.spinOk t = true
          · rw [if_pos hsk] at hres
            exact ih false (t + 1) s p fs s2 t2 hbuf h1 h2 hres
          · rw [if_neg hsk] at hres
            exact absurd hres (by simp)
        | false =>
          rw [if_neg (by simp)] at hres
          by_cases hwa : o.wa t = true
          · rw [if_pos hwa] at hres
            exact absurd hres (by simp)
          · rw [if_neg hwa] at hres
            exact ih false (t + 1) s p fs s2 t2 hbuf h1 h2 hres
      · rw [if_neg hbh] at hres
        exact ih sync (t + 1) (wrapState s) p fs s2 t2 (by simp [hbuf])
          (by simp [h1]) (by simp [h2]) hres
    · rw [if_neg hlo] at hres
      have hES : c.extraSpace = 4 + c.post := rfl
      have hPS : PREFIX_SIZE = 4 := rfl
      have hble : boundAt o t s ≤ N := boundAt_le o t s N hrd hbuf
      have hLe : s.wcur + (c.extraSpace + 1) + leftoverAt c o t s = boundAt o t s := by
        unfold leftoverAt
        omega
      by_cases hsp : leftoverAt c o t s < p.length + c.extraSpace
      · rw [if_pos hsp] at hres
        cases hmr : Write c o fuel sync (t + 1)
            (storeFrame c s (p.take (leftoverAt c o t s)) 1).1
            (p.drop (leftoverAt c o t s)) with
        | ok v =>
          obtain ⟨b1, fs1, s21, t21⟩ := v
          rw [hmr] at hres
          simp only [Except.ok.injEq, Prod.mk.injEq] at hres
          obtain ⟨hb, hfs, hs2, ht2⟩ := hres
          subst hb
          subst hfs
          obtain ⟨⟨front1, lp1, hshape, hfront⟩, hflat, -⟩ :=
            ih sync (t + 1) (storeFrame c s (p.take (leftoverAt c o t s)) 1).1
              (p.drop (leftoverAt c o t s)) fs1 s21 t21 (by simp [hbuf])
              (by simp [h1]) (by simp [h2]) hmr
          have hfit : (p.take (leftoverAt c o t s)).length ≤
              s.buf.length - (s.wcur + PREFIX_SIZE) := by
            have hlen : (p.take (leftoverAt c o t s)).length =
                min (leftoverAt c o t s) p.length := by simp
            omega
          rw [storeFrame_frame_of_fits c s _ 1 hfit]
          refine ⟨⟨(p.take (leftoverAt c o t s), 1) :: front1, lp1, ?_, ?_⟩, ?_, ?_⟩
          · rw [hshape]
            rfl
          · intro x hx
            rcases List.mem_cons.mp hx with hx0 | hx1
            · rw [hx0]
            · exact hfront x hx1
          · simp only [List.map_cons, List.flatten_cons, hflat,
              List.take_append_drop]
          · intro _
            rw [hshape]
            simp
        | error e =>
          rw [hmr] at hres
          exact absurd hres (by simp)
      · rw [if_neg hsp] at hres
        simp only [Except.ok.injEq, Prod.mk.injEq, true_and] at hres
        obtain ⟨hfs, hs2, ht2⟩ := hres
        have hfit : p.length ≤ s.buf.length - (s.wcur + PREFIX_SIZE) := by
          omega
        rw [storeFrame_frame_of_fits c s p 0 hfit] at hfs
        subst hfs
        refine ⟨⟨[], p, rfl, by intro x hx; cases hx⟩, by simp, ?_⟩
        intro hbig
        omega

/-- C2 (split law): for every payload `p` with
`|p| > |B| - EXTRA_SPACE - 1` on a writable writer, a write call that
completes its emission (returns `false`) stores one or more
NOT_FINAL = 1 frames followed by exactly one NOT_FINAL = 0 frame, and
the concatenation of the emitted frames' payload bytes is exactly `p`.
The reader is an arbitrary oracle whose `READ_INDEX` values stay within
the ring. -/
theorem split_law (c : Cfg) (o : Oracle) (N fuel : Nat) (sync : Bool)
    (t : Nat) (s : WS) (p : List Nat) (fs : List (List Nat × Nat))
    (s2 : WS) (t2 : Nat)
    (hrd : ∀ u, (o.rd u).1 ≤ N) (hbuf : s.buf.length = N)
    (h1 : s.destroyed = false) (h2 : s.ending = false)
    (hbig : N < p.length + c.extraSpace + 1)
    (hres : Write c o fuel sync t s p = .ok (false, fs, s2, t2)) :
    ∃ front lp, fs = front ++ [(lp, 0)] ∧ front ≠ [] ∧
      (∀ x ∈ front, x.2 = 1) ∧ (fs.map Prod.fst).flatten = p := by
  obtain ⟨⟨front, lp, hshape, hfront⟩, hflat, hlen⟩ :=
    write_frames c o N hrd fuel sync t s p fs s2 t2 hbuf h1 h2 hres
  refine ⟨front, lp, hshape, ?_, hfront, hflat⟩
  intro hempty
  have h2f := hlen hbig
  rw [hshape, hempty] at h2f
  simp at h2f

/-- A 12-byte payload, longer than `16 - EXTRA_SPACE - 1 = 11`. -/
def pW : List Nat := [1, 2, 3, 4, 5, 6, 7, 8, 9, 10, 11, 12]

/-- Reader for the split-law witness: drained at the initial load, then
standing at the end of the written region. -/
def oW : Oracle :=
  { rd := fun u => ((if u = 0 then 0 else 16), 0), wa := fun _ => true,
    spinOk := fun _ => true, rp := fun _ => Sign.ready,
    syncWa := fun _ => none }

/-- The split-law witness computation on a fresh 16-byte ring. -/
def resW : Except (WErr × WS) (Bool × List (List Nat × Nat) × WS × Nat) :=
  Write cfg0 oW 10 true 0 (initWS 16) pW

/-- Frames of the split-law witness computation. -/
def fsW : List (List Nat × Nat) := framesOf resW

/-- Final state of the split-law witness computation. -/
def wsW : WS := wsOf resW

/-- Witness for `split_law`: `write_sync` of the 12-byte payload on the
16-byte ring splits into an 11-byte NOT_FINAL = 1 frame and a final
1-byte NOT_FINAL = 0 frame. -/
theorem split_law_witness :
    (∀ u, (oW.rd u).1 ≤ 16) ∧
    (initWS 16).buf.length = 16 ∧
    (16 < pW.length + cfg0.extraSpace + 1) ∧
    (∃ front lp, fsW = front ++ [(lp, 0)] ∧ front ≠ [] ∧
      (∀ x ∈ front, x.2 = 1) ∧ (fsW.map Prod.fst).flatten = pW) := by
  have hrdW : ∀ u, (oW.rd u).1 ≤ 16 := by
    intro u
    cases u with
    | zero => simp [oW]
    | succ n => simp [oW]
  refine ⟨hrdW, rfl, by decide, ?_⟩
  exact split_law cfg0 oW 16 10 true 0 (initWS 16) pW fsW wsW 3 hrdW rfl rfl
    rfl (by decide) rfl

/-- Count of `drain` events in an emission log. -/
def countDrain : List Ev → Nat
  | [] => 0
  | Ev.drainEv :: rest => countDrain rest + 1
  | _ :: rest => countDrain rest

theorem countDrain_append (a b : List Ev) :
    countDrain (a ++ b) = countDrain a + countDrain b := by
  induction a with
  | nil => simp [countDrain]
  | cons x rest ihh => cases x <;> simp [countDrain, ihh] <;> omega

theorem destroyFn_countDrain (o : Oracle) (t : Nat) (e : Option Err) (s : WS) :
    countDrain ((destroyFn o t e s).1).events = countDrain s.events := by
  unfold destroyFn
  split
  · rfl
  · cases e with
    | none => simp [countDrain_append, countDrain]
    | some x => simp [countDrain_append, countDrain]

theorem endPrep_events (o : Oracle) (t : Nat) (s : WS) :
    (endPrep o t s).events = s.events := by
  unfold endPrep
  split
  · rfl
  · rfl

theorem endPrep_mode (o : Oracle) (t : Nat) (s : WS) :
    (endPrep o t s).mode = s.mode := by
  unfold endPrep
  split
  · rfl
  · rfl

theorem endFn_countDrain (o : Oracle) (t : Nat) (s : WS) :
    countDrain ((endFn o t s).1).events = countDrain s.events := by
  unfold endFn
  split
  · rfl
  · split
    · split
      · rw [destroyFn_countDrain]
        show countDrain (endPrep o t s).events = countDrain s.events
        rw [endPrep_events]
      · rw [destroyFn_countDrain]
        show countDrain (endPrep o t s).events = countDrain s.events
        rw [endPrep_events]
    · show countDrain ((endPrep o t s).events ++ [Ev.finishEv]) =
        countDrain s.events
      rw [countDrain_append, endPrep_events]
      simp [countDrain]

theorem endFn_mode (o : Oracle) (t : Nat) (s : WS) :
    ((endFn o t s).1).mode = s.mode := by
  unfold endFn
  split
  · rfl
  · split
    · split
      · rw [destroyFn_mode]
        show (endPrep o t s).mode = s.mode
        rw [endPrep_mode]
      · rw [destroyFn_mode]
        show (endPrep o t s).mode = s.mode
        rw [endPrep_mode]
    · show (endPrep o t s).mode = s.mode
      rw [endPrep_mode]

/-- Preservation facts about one `_drain` pass: it emits exactly one
`drain` event when it fully drains (returning `true`, leaving normal
mode) and none otherwise (returning `false` or throwing, staying in
buffering mode if it was there). -/
theorem drain_pres (c : Cfg) (o : Oracle) (fuel : Nat) :
    ∀ (lf t : Nat) (s : WS),
    (∀ b fs s2 t2, drain c o fuel lf t s = .ok (b, fs, s2, t2) →
      (b = true → countDrain s2.events = countDrain s.events + 1 ∧
        s2.mode = Mode.normal) ∧
      (b = false → countDrain s2.events = countDrain s.events ∧
        (s.mode = Mode.buffering → s2.mode = Mode.buffering))) ∧
    (∀ e s2, drain c o fuel lf t s = .error (e, s2) →
      countDrain s2.events = countDrain s.events ∧
      (s.mode = Mode.buffering → s2.mode = Mode.buffering)) := by
  intro lf
  induction lf with
  | zero =>
    intro t s
    constructor
    · intro b fs s2 t2 h
      simp [drain] at h
    · intro e s2 h
      simp only [drain, Except.error.injEq, Prod.mk.injEq] at h
      obtain ⟨-, rfl⟩ := h
      exact ⟨rfl, fun hm => hm⟩
  | succ lf ihl =>
    intro t s
    cases hx : s.extra with
    | nil =>
      constructor
      · intro b fs s2 t2 h
        simp [drain, hx] at h
      · intro e s2 h
        simp only [drain, hx, Except.error.injEq, Prod.mk.injEq] at h
        obtain ⟨-, rfl⟩ := h
        exact ⟨rfl, fun hm => hm⟩
    | cons item rest =>
      have hwp := write_pres c o fuel false t { s with extra := rest } item
      cases hw : Write c o fuel false t { s with extra := rest } item with
      | error e0 =>
        obtain ⟨ev0, s20⟩ := e0
        rw [hw] at hwp
        obtain ⟨he, hm, -, -, -, -⟩ := hwp
        constructor
        · intro b fs s2 t2 h
          simp [drain, hx, hw] at h
        · intro e s2 h
          simp only [drain, hx, hw, Except.error.injEq, Prod.mk.injEq] at h
          obtain ⟨-, rfl⟩ := h
          exact ⟨by rw [he], fun hmo => by rw [hm]; exact hmo⟩
      | ok v =>
        obtain ⟨status, fs0, s1, t1⟩ := v
        rw [hw] at hwp
        obtain ⟨he, -, -, -, hmb, -, -⟩ := hwp
        have hev1 : countDrain s1.events = countDrain s.events := by rw [he]
        have hmb1 : s.mode = Mode.buffering → s1.mode = Mode.buffering :=
          fun hmo => hmb hmo
        cases status with
        | true =>
          constructor
          · intro b fs s2 t2 h
            simp only [drain, hx, hw] at h
            simp only [if_pos, Except.ok.injEq, Prod.mk.injEq] at h
            obtain ⟨hb, -, hs, -⟩ := h
            subst hs
            cases hb
            exact ⟨(fun hbt => nomatch hbt), fun _ => ⟨hev1, hmb1⟩⟩
          · intro e s2 h
            simp [drain, hx, hw] at h
        | false =>
          by_cases hemp : s1.extra.isEmpty = true
          · constructor
            · intro b fs s2 t2 h
              simp only [drain, hx, hw, hemp] at h
              simp only [Bool.false_eq_true, if_false, if_pos,
                Except.ok.injEq, Prod.mk.injEq] at h
              obtain ⟨hb, -, hs, -⟩ := h
              subst hs
              cases hb
              refine ⟨fun _ => ⟨?_, rfl⟩, (fun hbf => nomatch hbf)⟩
              show countDrain (s1.events ++ [Ev.drainEv]) =
                countDrain s.events + 1
              rw [countDrain_append, hev1]
              simp [countDrain]
            · intro e s2 h
              simp [drain, hx, hw, hemp] at h
          · constructor
            · intro b fs s2 t2 h
              simp only [drain, hx, hw, hemp] at h
              simp only [Bool.false_eq_true, if_false] at h
              cases hd2 : drain c o fuel lf t1 s1 with
              | error e2 =>
                rw [hd2] at h
                simp at h
              | ok v2 =>
                obtain ⟨b2, fs2, s22, t22⟩ := v2
                rw [hd2] at h
                simp only [Except.ok.injEq, Prod.mk.injEq] at h
                obtain ⟨hb, -, hs, -⟩ := h
                subst hs
                subst hb
                have hfacts := (ihl t1 s1).1 b2 fs2 s22 t22 hd2
                constructor
                · intro hbt
                  obtain ⟨hcnt, hmo⟩ := hfacts.1 hbt
                  exact ⟨by rw [hcnt, hev1], hmo⟩
                · intro hbf
                  obtain ⟨hcnt, hmo⟩ := hfacts.2 hbf
                  exact ⟨by rw [hcnt, hev1], fun hmm => hmo (hmb1 hmm)⟩
            · intro e s2 h
              simp only [drain, hx, hw, hemp] at h
              simp only [Bool.false_eq_true, if_false] at h
              cases hd2 : drain c o fuel lf t1 s1 with
              | error e2 =>
                obtain ⟨ev2, s22⟩ := e2
                rw [hd2] at h
                simp only [Except.error.injEq, Prod.mk.injEq] at h
                obtain ⟨-, rfl⟩ := h
                obtain ⟨hcnt, hmo⟩ := (ihl t1 s1).2 ev2 s22 hd2
                exact ⟨by rw [hcnt, hev1], fun hmm => hmo (hmb1 hmm)⟩
              | ok v2 =>
                obtain ⟨b2, fs2, s22, t22⟩ := v2
                rw [hd2] at h
                simp at h

/-- Actions the writer's single event loop can interleave: a public
`write(p)` call, the resolution of the registered
`waitAsync(READ_INDEX, …)` running `this._drain()`, a `destroy(err)`,
and an `end()`. -/
inductive Act
  | wr (p : List Nat)
  | wake
  | dest (e : Option Err)
  | fin
deriving Repr, DecidableEq

/-- A writer state paired with its oracle load counter. -/
structure St where
  ws : WS
  t : Nat
deriving Repr, DecidableEq

/-- One event-loop step: the resulting state and, for a `write` call,
the boolean it returned (`none` for non-write actions or a thrown
write). -/
def stepA (c : Cfg) (o : Oracle) (fuel lf : Nat) (st : St) (a : Act) :
    St × Option Bool :=
  match a with
  | Act.wr p =>
    (⟨(dispatchWrite c o fuel st.t st.ws p).1.1,
      (dispatchWrite c o fuel st.t st.ws p).1.2⟩,
     (dispatchWrite c o fuel st.t st.ws p).2)
  | Act.wake =>
    match drain c o fuel lf st.t st.ws with
    | .ok (_, _, s2, t2) => (⟨s2, t2⟩, none)
    | .error (_, s2) => (⟨s2, st.t⟩, none)
  | Act.dest e =>
    (⟨(destroyFn o st.t e st.ws).1, (destroyFn o st.t e st.ws).2⟩, none)
  | Act.fin =>
    (⟨(endFn o st.t st.ws).1, (endFn o st.t st.ws).2⟩, none)

/-- Run a list of actions, returning the final state. -/
def execSteps (c : Cfg) (o : Oracle) (fuel lf : Nat) : St → List Act → St
  | st, [] => st
  | st, a :: as => execSteps c o fuel lf (stepA c o fuel lf st a).1 as

/-- Run a list of actions, returning each action paired with the boolean
its step returned. -/
def runSteps (c : Cfg) (o : Oracle) (fuel lf : Nat) :
    St → List Act → List (Act × Option Bool)
  | _, [] => []
  | st, a :: as =>
    (a, (stepA c o fuel lf st a).2) ::
      runSteps c o fuel lf (stepA c o fuel lf st a).1 as

/-- Every step moves the drain-event count up by zero or one. -/
theorem step_countDrain_le (c : Cfg) (o : Oracle) (fuel lf : Nat)
    (st : St) (a : Act) :
    countDrain st.ws.events ≤
      countDrain ((stepA c o fuel lf st a).1).ws.events ∧
    countDrain ((stepA c o fuel lf st a).1).ws.events ≤
      countDrain st.ws.events + 1 := by
  cases a with
  | wr p =>
    cases hm0 : st.ws.mode with
    | buffering =>
      constructor
      · simp [stepA, dispatchWrite, hm0]
      · simp [stepA, dispatchWrite, hm0]
    | normal =>
      cases hw : Write c o fuel false st.t st.ws p with
      | ok v =>
        obtain ⟨b, fs, s2, t2⟩ := v
        have hp := write_pres c o fuel false st.t st.ws p
        rw [hw] at hp
        obtain ⟨he, -, -, -, -, -, -⟩ := hp
        constructor
        · simp [stepA, dispatchWrite, hm0, hw, he]
        · simp [stepA, dispatchWrite, hm0, hw, he]
      | error e0 =>
        obtain ⟨ev, s2⟩ := e0
        have hp := write_pres c o fuel false st.t st.ws p
        rw [hw] at hp
        obtain ⟨he, -, -, -, -, -⟩ := hp
        constructor
        · simp [stepA, dispatchWrite, hm0, hw, he]
        · simp [stepA, dispatchWrite, hm0, hw, he]
  | wake =>
    cases hd : drain c o fuel lf st.t st.ws with
    | ok v =>
      obtain ⟨b, fs, s2, t2⟩ := v
      have hf := (drain_pres c o fuel lf st.t st.ws).1 b fs s2 t2 hd
      cases b with
      | true =>
        obtain ⟨hcnt, -⟩ := hf.1 rfl
        constructor
        · simp only [stepA, hd]
          omega
        · simp only [stepA, hd]
          omega
      | false =>
        obtain ⟨hcnt, -⟩ := hf.2 rfl
        constructor
        · simp only [stepA, hd]
          omega
        · simp only [stepA, hd]
          omega
    | error e0 =>
      obtain ⟨ev, s2⟩ := e0
      have hf := (drain_pres c o fuel lf st.t st.ws).2 ev s2 hd
      constructor
      · simp only [stepA, hd]
        omega
      · simp only [stepA, hd]
        omega
  | dest e =>
    have hc := destroyFn_countDrain o st.t e st.ws
    constructor
    · simp only [stepA]
      omega
    · simp only [stepA]
      omega
  | fin =>
    have hc := endFn_countDrain o st.t st.ws
    constructor
    · simp only [stepA]
      omega
    · simp only [stepA]
      omega

theorem exec_countDrain_mono (c : Cfg) (o : Oracle) (fuel lf : Nat) :
    ∀ (acts : List Act) (st : St),
    countDrain st.ws.events ≤
      countDrain (execSteps c o fuel lf st acts).ws.events := by
  intro acts
  induction acts with
  | nil =>
    intro st
    exact Nat.le_refl _
  | cons a as ihh =>
    intro st
    have h1 := (step_countDrain_le c o fuel lf st a).1
    have h2 := ihh (stepA c o fuel lf st a).1
    have h3 : execSteps c o fuel lf st (a :: as) =
        execSteps c o fuel lf (stepA c o fuel lf st a).1 as := rfl
    rw [h3]
    omega

/-- If a step starts in buffering mode and emits no drain event, the
writer is still in buffering mode afterwards, and if the step was a
`write` it returned `true`. -/
theorem step_buffering (c : Cfg) (o : Oracle) (fuel lf : Nat)
    (st : St) (a : Act) (hm : st.ws.mode = Mode.buffering)
    (hd : countDrain ((stepA c o fuel lf st a).1).ws.events =
      countDrain st.ws.events) :
    ((stepA c o fuel lf st a).1).ws.mode = Mode.buffering ∧
    (∀ p, a = Act.wr p → (stepA c o fuel lf st a).2 = some true) := by
  cases a with
  | wr p =>
    constructor
    · simp [stepA, dispatchWrite, hm]
    · intro q hq
      cases hq
      simp [stepA, dispatchWrite, hm]
  | wake =>
    refine ⟨?_, fun q hq => nomatch hq⟩
    cases hdr : drain c o fuel lf st.t st.ws with
    | ok v =>
      obtain ⟨b, fs, s2, t2⟩ := v
      have hf := (drain_pres c o fuel lf st.t st.ws).1 b fs s2 t2 hdr
      cases b with
      | true =>
        obtain ⟨hcnt, -⟩ := hf.1 rfl
        simp only [stepA, hdr] at hd
        omega
      | false =>
        obtain ⟨-, hmo⟩ := hf.2 rfl
        simp only [stepA, hdr]
        exact hmo hm
    | error e0 =>
      obtain ⟨ev, s2⟩ := e0
      have hf := (drain_pres c o fuel lf st.t st.ws).2 ev s2 hdr
      simp only [stepA, hdr]
      exact hf.2 hm
  | dest e =>
    refine ⟨?_, fun q hq => nomatch hq⟩
    simp only [stepA]
    rw [destroyFn_mode]
    exact hm
  | fin =>
    refine ⟨?_, fun q hq => nomatch hq⟩
    simp only [stepA]
    rw [endFn_mode]
    exact hm

/-- C5 (backpressure law): if an asynchronous `write(p)` returns `true`,
then along any continuation of the event loop during which no `drain`
event is emitted, every `write` call returns `true`; and every single
step emits at most one `drain` event, so the backpressure episode can
only be ended by exactly one `drain` event. -/
theorem backpressure_law (c : Cfg) (o : Oracle) (fuel lf : Nat)
    (st0 st1 : St) (p : List Nat)
    (h1 : stepA c o fuel lf st0 (Act.wr p) = (st1, some true)) :
    (∀ acts : List Act,
      countDrain (execSteps c o fuel lf st1 acts).ws.events =
        countDrain st1.ws.events →
      ∀ x ∈ runSteps c o fuel lf st1 acts,
        (∃ q, x.1 = Act.wr q) → x.2 = some true) ∧
    (∀ (st : St) (a : Act),
      countDrain ((stepA c o fuel lf st a).1).ws.events ≤
        countDrain st.ws.events + 1) := by
  have hmode : st1.ws.mode = Mode.buffering := by
    cases hm0 : st0.ws.mode with
    | buffering =>
      simp only [stepA, dispatchWrite, hm0] at h1
      obtain ⟨hst, -⟩ := Prod.mk.injEq .. |>.mp h1
      rw [← hst]
    | normal =>
      cases hw : Write c o fuel false st0.t st0.ws p with
      | ok v =>
        obtain ⟨b, fs, s2, t2⟩ := v
        have hp := write_pres c o fuel false st0.t st0.ws p
        rw [hw] at hp
        obtain ⟨-, -, -, -, -, hu, -⟩ := hp
        simp only [stepA, dispatchWrite, hm0, hw] at h1
        obtain ⟨hst, hb⟩ := Prod.mk.injEq .. |>.mp h1
        have hbt : b = true := by
          have := Option.some.injEq .. |>.mp hb
          exact this
        rw [← hst]
        exact (hu hbt).1
      | error e0 =>
        obtain ⟨ev, s2⟩ := e0
        simp [stepA, dispatchWrite, hm0, hw] at h1
  constructor
  · have main : ∀ (acts : List Act) (st : St), st.ws.mode = Mode.buffering →
        countDrain (execSteps c o fuel lf st acts).ws.events =
          countDrain st.ws.events →
        ∀ x ∈ runSteps c o fuel lf st acts,
          (∃ q, x.1 = Act.wr q) → x.2 = some true := by
      intro acts
      induction acts with
      | nil =>
        intro st hm hnd x hx
        simp [runSteps] at hx
      | cons a as ihh =>
        intro st hm hnd x hx hq
        have hstep := (step_countDrain_le c o fuel lf st a).1
        have hexec := exec_countDrain_mono c o fuel lf as (stepA c o fuel lf st a).1
        have hndc : countDrain
            (execSteps c o fuel lf (stepA c o fuel lf st a).1 as).ws.events =
            countDrain st.ws.events := hnd
        have heq : countDrain ((stepA c o fuel lf st a).1).ws.events =
            countDrain st.ws.events := by omega
        have hb := step_buffering c o fuel lf st a hm heq
        have hxs : x ∈ (a, (stepA c o fuel lf st a).2) ::
            runSteps c o fuel lf (stepA c o fuel lf st a).1 as := hx
        rcases List.mem_cons.mp hxs with hx0 | hx1
        · rw [hx0]
          obtain ⟨q, hqa⟩ := hq
          rw [hx0] at hqa
          exact hb.2 q hqa
        · exact ihh (stepA c o fuel lf st a).1 hb.1
            (by rw [hndc, heq]) x hx1 hq
    intro acts hnd x hx hq
    exact main acts st1 hmode hnd x hx hq
  · intro st a
    exact (step_countDrain_le c o fuel lf st a).2

/-- Witness for `backpressure_law`: a buffered write on `sBuf` returns
`true`; the law then applies to every continuation. -/
theorem backpressure_law_witness :
    (stepA cfg0 oracleS1 5 5 ⟨sBuf, 0⟩ (Act.wr [1]) =
      (⟨{ sBuf with extra := sBuf.extra ++ [[1]] }, 0⟩, some true)) ∧
    ((∀ acts : List Act,
      countDrain (execSteps cfg0 oracleS1 5 5
          ⟨{ sBuf with extra := sBuf.extra ++ [[1]] }, 0⟩ acts).ws.events =
        countDrain ({ sBuf with
          extra := sBuf.extra ++ [[1]] } : WS).events →
      ∀ x ∈ runSteps cfg0 oracleS1 5 5
          ⟨{ sBuf with extra := sBuf.extra ++ [[1]] }, 0⟩ acts,
        (∃ q, x.1 = Act.wr q) → x.2 = some true) ∧
    (∀ (st : St) (a : Act),
      countDrain ((stepA cfg0 oracleS1 5 5 st a).1).ws.events ≤
        countDrain st.ws.events + 1)) :=
  ⟨rfl, backpressure_law cfg0 oracleS1 5 5 ⟨sBuf, 0⟩
    ⟨{ sBuf with extra := sBuf.extra ++ [[1]] }, 0⟩ [1] rfl⟩

end SharedStream
